import Mathlib

/-!
Verification development for the dn-ioc dependency-resolution runtime
(`src/ioc.ts`).  The resolution engine `injectInternal`, the override lookup
`findRefInContext`, the global instance cache, the cycle-detection stack, the
resolver-deactivation machinery of `makeInject`, and the asynchronous caching
protocol (store the in-flight promise immediately; on rejection evict the
entry only if it is still the one this call installed) are embedded as a
fuelled state-passing interpreter.  Provider references are identified by
natural numbers (JS reference identity), promises by indices into an explicit
promise store, and the event loop's delivery of a settled promise to its
registered `then`-handlers is an explicit `settle` step.
-/

namespace DnIoc

/-- Instance mode of a provider (source: `ProvideOptions.mode`): `global`
instances are cached in the process-wide cache, `standalone` instances are
constructed anew on every injection. -/
inductive Mode where
  | global
  | standalone
deriving DecidableEq

/-- Runtime values.  Object identity is explicit: `obj` carries an allocation
id, a promise is an id into the promise store (`pending`), and a resolver
capability captured by a factory is the value `resolver iid`. -/
inductive Val where
  | str (s : String)
  | natV (n : Nat)
  | obj (allocId : Nat)
  | pending (pid : Nat)
  | resolver (iid : Nat)
  | pairV (a b : Val)
deriving DecidableEq

/-- Errors surfaced by a resolution: a detected circular dependency (with its
message), an error thrown synchronously by a factory, or fuel exhaustion of
the fuelled interpreter. -/
inductive Err where
  | circular (msg : String)
  | thrown (msg : String)
  | noFuel
deriving DecidableEq

/-- Body of a provider factory, one invocation's behaviour: return a value,
throw, allocate a fresh object, resolve a dependency (`inj`), resolve two
dependencies and pair them, return the resolver capability itself (a factory
stashing its `inject` for later use), or return a fresh promise with a
predetermined outcome (`asyncF`), possibly one that will deliver the captured
resolver (`asyncRetResolver`). -/
inductive FBody where
  | ret (v : Val)
  | throwF (msg : String)
  | newObj
  | inj (r : Nat)
  | pairInj (r1 r2 : Nat)
  | retResolver
  | asyncF (outcome : Except String Val)
  | asyncRetResolver

/-- A provider (source: `RefInternal`).  `factory` is indexed by the
invocation count of this provider, modelling a stateful closure; `providers`
lists the local override providers by reference id; `overrides` is the
override target.  Defaults match `provide`: mode `global`, no providers, no
override target, anonymous factory. -/
structure Provider where
  mode : Mode := Mode.global
  fname : String := ""
  factory : Nat → FBody
  providers : List Nat := []
  overrides : Option Nat := none

/-- The provider environment: what `provide` has created, by reference id. -/
def Env : Type := Nat → Provider

/-- An internal context (source: `InternalContext`): the root context of
`runInInjectionContext` (empty local-provider table, no parent) or a child
context with its local-provider table and parent. -/
inductive Ctx where
  | root
  | child (localProviders : List (Nat × Nat)) (parent : Ctx)
deriving DecidableEq

/-- One `makeInject` product: the context and stack it closes over, plus its
`active` flag (set to `false` by `deactivate`). -/
structure InjectRec where
  targetCtx : Ctx
  stack : List Nat
  active : Bool
deriving DecidableEq

deriving instance DecidableEq for Except

/-- One `.then(onFulfilled, onRejected)` registration made by
`injectInternal` on the promise a factory returned: the provider that was
being constructed, its mode, and the inject record(s) to deactivate. -/
structure Handler where
  ref : Nat
  mode : Mode
  childInj : Option Nat
  selfInj : Nat
deriving DecidableEq

/-- A promise in the store: its predetermined outcome, whether it has
settled, and the handlers registered on it. -/
structure PromiseRec where
  outcome : Except String Val
  settled : Bool
  handlers : List Handler
deriving DecidableEq

/-- Global interpreter state: the module-scoped `globalInstances` map, the
store of `makeInject` records, the promise store, the trace of factory
invocations (by provider id), and the object-allocation counter. -/
structure St where
  globalInstances : List (Nat × Val)
  injs : List InjectRec
  promises : List PromiseRec
  invocations : List Nat
  nextObj : Nat
deriving DecidableEq

/-- The empty initial state: empty cache, no resolvers, no promises. -/
def emptySt : St :=
  { globalInstances := [], injs := [], promises := [], invocations := [], nextObj := 0 }

/-- First-match association lookup (`Map.get`). -/
def mapGet {α : Type} (key : Nat) : List (Nat × α) → Option α
  | [] => none
  | (k, v) :: rest => if k = key then some v else mapGet key rest

/-- `globalInstances.get(r)`. -/
def cacheGet (s : St) (r : Nat) : Option Val := mapGet r s.globalInstances

/-- `globalInstances.set(r, v)` (newest binding shadows older ones). -/
def cacheSet (s : St) (r : Nat) (v : Val) : St :=
  { s with globalInstances := (r, v) :: s.globalInstances }

/-- `globalInstances.delete(r)`. -/
def cacheDelete (s : St) (r : Nat) : St :=
  { s with globalInstances := s.globalInstances.filter (fun kv => kv.1 != r) }

/-- `resetGlobalInstances()`: clear all cached global instances. -/
def resetGlobalInstances (s : St) : St := { s with globalInstances := [] }

/-- Number of invocations of provider `r`'s factory so far. -/
def countInv (s : St) (r : Nat) : Nat := s.invocations.count r

/-- Record one factory invocation of provider `r`. -/
def recordInv (s : St) (r : Nat) : St := { s with invocations := s.invocations ++ [r] }

/-- Allocate a fresh `makeInject` record (its id is `s.injs.length`). -/
def pushInject (s : St) (ctx : Ctx) (stack : List Nat) : St :=
  { s with injs := s.injs ++ [{ targetCtx := ctx, stack := stack, active := true }] }

/-- Allocate a fresh promise (its id is `s.promises.length`). -/
def pushPromise (s : St) (outcome : Except String Val) : St :=
  { s with promises := s.promises ++ [{ outcome := outcome, settled := false, handlers := [] }] }

/-- Set the `active` flag of inject record `iid` to `false`. -/
def setInactive : List InjectRec → Nat → List InjectRec
  | [], _ => []
  | rec :: rest, 0 => { rec with active := false } :: rest
  | rec :: rest, n + 1 => rec :: setInactive rest n

/-- `deactivate()` of the `makeInject` product `iid`. -/
def deactivate (s : St) (iid : Nat) : St := { s with injs := setInactive s.injs iid }

/-- `childInject?.deactivate()`. -/
def deactivateOpt (s : St) : Option Nat → St
  | none => s
  | some iid => deactivate s iid

/-- Append a handler to promise `pid`. -/
def addHandlerAux (h : Handler) : List PromiseRec → Nat → List PromiseRec
  | [], _ => []
  | rec :: rest, 0 => { rec with handlers := rec.handlers ++ [h] } :: rest
  | rec :: rest, n + 1 => rec :: addHandlerAux h rest n

/-- Register a `.then` handler on promise `pid`. -/
def addHandler (s : St) (pid : Nat) (h : Handler) : St :=
  { s with promises := addHandlerAux h s.promises pid }

/-- Mark promise `pid` as settled. -/
def markSettledAux : List PromiseRec → Nat → List PromiseRec
  | [], _ => []
  | rec :: rest, 0 => { rec with settled := true } :: rest
  | rec :: rest, n + 1 => rec :: markSettledAux rest n

/-- Mark promise `pid` as settled in the state. -/
def markSettled (s : St) (pid : Nat) : St := { s with promises := markSettledAux s.promises pid }

/-- The outcome a promise will deliver. -/
def promOutcome (s : St) (pid : Nat) : Option (Except String Val) :=
  (s.promises.get? pid).map (fun rec => rec.outcome)

/-- Source: `getRefName` — the factory's declared name, `<anonymous>` when the
name is empty (JS `ref.factory.name || '<anonymous>'`). -/
def getRefName (p : Provider) : String := if p.fname = "" then "<anonymous>" else p.fname

/-- Source: `isPromiseLike` — here, whether a value is a promise, returning
its id. -/
def isPromiseLike : Val → Option Nat
  | .pending pid => some pid
  | _ => none

/-- Source: `findRefInContext` — walk from the current context up through
parents; the first local-provider table containing the requested reference
wins; fall back to the requested reference itself. -/
def findRefInContext (refInstance : Nat) : Ctx → Nat
  | .root => refInstance
  | .child localProviders parent =>
    match mapGet refInstance localProviders with
    | some localRef => localRef
    | none => findRefInContext refInstance parent

/-- The local-provider table of the child context created in `injectInternal`
lines 131–135: each provider is keyed by `p.overrides || provider`; a later
`Map.set` with the same key shadows an earlier one (newest binding first). -/
def buildLocals (env : Env) (provs : List Nat) : List (Nat × Nat) :=
  provs.foldl (fun acc pr => (((env pr).overrides).getD pr, pr) :: acc) []

/-- The cache check of `injectInternal` line 120: only `global`-mode
providers consult the global instance cache. -/
def cachedGlobal (s : St) (mode : Mode) (r : Nat) : Option Val :=
  if mode = Mode.global then cacheGet s r else none

/-- One step of a factory body, given the resolver semantics `resolveF` (the
recursive `injectInternal` at the remaining fuel).  `ctx` and `stack` are the
context and stack the factory's `inject` closes over; `iid` is the id of that
inject record (delivered by `retResolver`). -/
def evalBody (resolveF : Nat → Ctx → List Nat → St → Except Err Val × St) :
    FBody → Ctx → List Nat → Nat → St → Except Err Val × St
  | .ret v, _, _, _, s => (.ok v, s)
  | .throwF msg, _, _, _, s => (.error (.thrown msg), s)
  | .newObj, _, _, _, s => (.ok (.obj s.nextObj), { s with nextObj := s.nextObj + 1 })
  | .inj r, ctx, stack, _, s => resolveF r ctx stack s
  | .pairInj r1 r2, ctx, stack, _, s =>
    let a := resolveF r1 ctx stack s
    match a.1 with
    | .error e => (.error e, a.2)
    | .ok v1 =>
      let b := resolveF r2 ctx stack a.2
      match b.1 with
      | .error e => (.error e, b.2)
      | .ok v2 => (.ok (.pairV v1 v2), b.2)
  | .retResolver, _, _, iid, s => (.ok (.resolver iid), s)
  | .asyncF outcome, _, _, _, s => (.ok (.pending s.promises.length), pushPromise s outcome)
  | .asyncRetResolver, _, _, iid, s =>
    (.ok (.pending s.promises.length), pushPromise s (.ok (.resolver iid)))

/-- The tail of `injectInternal` after the factory produced `res`
(lines 138–194): on a synchronous throw, deactivate the child inject then the
self inject and rethrow (catch block, lines 184–188); on a promise, store the
in-flight promise in the cache when the mode is `global` (lines 140–142 /
165–167), register the `.then` handler, and return the promise; on a
synchronous value, deactivate the injects (lines 160, 190) and store the
value in the cache when the mode is `global` (lines 191–193). -/
def finishConstruction (refInternal : Nat) (mode : Mode) (selfInj : Nat)
    (childInj : Option Nat) (res : Except Err Val) (s : St) : Except Err Val × St :=
  match res with
  | .error e => (.error e, deactivate (deactivateOpt s childInj) selfInj)
  | .ok v =>
    match isPromiseLike v with
    | some pid =>
      let s1 := if mode = Mode.global then cacheSet s refInternal (Val.pending pid) else s
      let s2 := addHandler s1 pid
        { ref := refInternal, mode := mode, childInj := childInj, selfInj := selfInj }
      (.ok (.pending pid), s2)
    | none =>
      let s1 := deactivateOpt s childInj
      let s2 := deactivate s1 selfInj
      let s3 := if mode = Mode.global then cacheSet s2 refInternal v else s2
      (.ok v, s3)

/-- The construction phase of `injectInternal` (lines 124–194), after the
cycle and cache checks: create the self inject over `targetCtx` and
`nextStack` (line 126); when `providers` is non-empty, create the child
context and its inject (lines 131–136) and run the factory against them,
otherwise run the factory against the self inject (line 162); then finish. -/
def construct (env : Env) (resolveF : Nat → Ctx → List Nat → St → Except Err Val × St)
    (refInternal : Nat) (p : Provider) (targetCtx : Ctx) (nextStack : List Nat)
    (s : St) : Except Err Val × St :=
  let selfInj := s.injs.length
  let s1 := pushInject s targetCtx nextStack
  match p.providers with
  | [] =>
    let idx := countInv s1 refInternal
    let s2 := recordInv s1 refInternal
    let r3 := evalBody resolveF (p.factory idx) targetCtx nextStack selfInj s2
    finishConstruction refInternal p.mode selfInj none r3.1 r3.2
  | q :: qs =>
    let childCtx := Ctx.child (buildLocals env (q :: qs)) targetCtx
    let childInj := s1.injs.length
    let s2 := pushInject s1 childCtx nextStack
    let idx := countInv s2 refInternal
    let s3 := recordInv s2 refInternal
    let r4 := evalBody resolveF (p.factory idx) childCtx nextStack childInj s3
    finishConstruction refInternal p.mode selfInj (some childInj) r4.1 r4.2

/-- Source: `injectInternal`, fuelled.  Find the effective provider via
`findRefInContext` (line 114), fail on a cycle (lines 116–118), return the
cached instance of a `global`-mode provider (lines 120–122), otherwise
construct with the extended stack (line 124 onward). -/
def injectInternal (env : Env) : Nat → Nat → Ctx → List Nat → St → Except Err Val × St
  | 0, _, _, _, s => (.error .noFuel, s)
  | fuel + 1, refInstance, targetCtx, stack, s =>
    let refInternal := findRefInContext refInstance targetCtx
    let p := env refInternal
    if refInternal ∈ stack then
      (.error (.circular ("Circular dependency detected: " ++ getRefName p)), s)
    else
      match cachedGlobal s p.mode refInternal with
      | some v => (.ok v, s)
      | none => construct env (injectInternal env fuel) refInternal p targetCtx
          (stack ++ [refInternal]) s

/-- `ctx.inject` (line 197) / the resolver `runInInjectionContext` hands out:
a top-level resolution against a context, with an empty stack. -/
def topInject (env : Env) (fuel : Nat) (r : Nat) (ctx : Ctx) (s : St) : Except Err Val × St :=
  injectInternal env fuel r ctx [] s

/-- Invoking a captured resolver capability (the closure of `makeInject`,
lines 99–102): resolve against the record's context, with the record's stack
when still active and with the empty stack once deactivated. -/
def callInject (env : Env) (fuel : Nat) (iid : Nat) (r : Nat) (s : St) : Except Err Val × St :=
  match s.injs.get? iid with
  | none => (.error (.thrown "no such resolver"), s)
  | some rec =>
    injectInternal env fuel r rec.targetCtx (if rec.active then rec.stack else []) s

/-- Run one rejection/fulfilment handler registered on promise `pid`
(lines 143–157 / 168–180): on fulfilment, deactivate the child inject then
the self inject; on rejection, first delete the cache entry of the provider
— only when the entry is still the very promise this handler's call
installed — then deactivate. -/
def runHandler (pid : Nat) (outcome : Except String Val) (s : St) (h : Handler) : St :=
  match outcome with
  | .ok _ => deactivate (deactivateOpt s h.childInj) h.selfInj
  | .error _ =>
    let s1 := if h.mode = Mode.global ∧ cacheGet s h.ref = some (Val.pending pid)
      then cacheDelete s h.ref else s
    deactivate (deactivateOpt s1 h.childInj) h.selfInj

/-- The event loop settling promise `pid`: deliver its outcome to every
registered handler, in registration order, once. -/
def settle (s : St) (pid : Nat) : St :=
  match s.promises.get? pid with
  | none => s
  | some rec =>
    if rec.settled then s
    else rec.handlers.foldl (runHandler pid rec.outcome) (markSettled s pid)

/-! ### Basic facts about the state operations -/

theorem cacheGet_pushInject (s : St) (ctx : Ctx) (stack : List Nat) (q : Nat) :
    cacheGet (pushInject s ctx stack) q = cacheGet s q := rfl

theorem cacheGet_recordInv (s : St) (r q : Nat) :
    cacheGet (recordInv s r) q = cacheGet s q := rfl

theorem cacheGet_pushPromise (s : St) (o : Except String Val) (q : Nat) :
    cacheGet (pushPromise s o) q = cacheGet s q := rfl

theorem cacheGet_deactivate (s : St) (i q : Nat) :
    cacheGet (deactivate s i) q = cacheGet s q := rfl

theorem cacheGet_deactivateOpt (s : St) (o : Option Nat) (q : Nat) :
    cacheGet (deactivateOpt s o) q = cacheGet s q := by
  cases o <;> rfl

theorem cacheGet_addHandler (s : St) (pid : Nat) (h : Handler) (q : Nat) :
    cacheGet (addHandler s pid h) q = cacheGet s q := rfl

theorem cacheGet_cacheSet_self (s : St) (r : Nat) (v : Val) :
    cacheGet (cacheSet s r v) r = some v := by
  simp [cacheGet, cacheSet, mapGet]

theorem cacheGet_cacheSet_ne (s : St) (r q : Nat) (v : Val) (h : q ≠ r) :
    cacheGet (cacheSet s r v) q = cacheGet s q := by
  show (if r = q then some v else mapGet q s.globalInstances) = cacheGet s q
  rw [if_neg (fun hh => h hh.symm)]
  rfl

theorem cacheGet_cacheSet_isSome (s : St) (r q : Nat) (v : Val)
    (h : (cacheGet s q).isSome) : (cacheGet (cacheSet s r v) q).isSome := by
  by_cases hq : q = r
  · subst hq; simp [cacheGet_cacheSet_self]
  · rwa [cacheGet_cacheSet_ne s r q v hq]

theorem mapGet_filter_self {α : Type} (r : Nat) (l : List (Nat × α)) :
    mapGet r (l.filter fun kv => kv.1 != r) = none := by
  induction l with
  | nil => rfl
  | cons kv rest ih =>
    by_cases hk : kv.1 = r
    · rw [List.filter_cons, if_neg (by simp [hk])]
      exact ih
    · rw [List.filter_cons, if_pos (by simp [hk])]
      show (if kv.1 = r then some kv.2
        else mapGet r (rest.filter fun kv => kv.1 != r)) = none
      rw [if_neg hk]
      exact ih

theorem mapGet_filter_ne {α : Type} (r q : Nat) (l : List (Nat × α)) (h : q ≠ r) :
    mapGet q (l.filter fun kv => kv.1 != r) = mapGet q l := by
  induction l with
  | nil => rfl
  | cons kv rest ih =>
    by_cases hk : kv.1 = r
    · rw [List.filter_cons, if_neg (by simp [hk])]
      show mapGet q (rest.filter fun kv => kv.1 != r) =
        if kv.1 = q then some kv.2 else mapGet q rest
      rw [if_neg (by rw [hk]; exact fun hh => h hh.symm)]
      exact ih
    · rw [List.filter_cons, if_pos (by simp [hk])]
      show (if kv.1 = q then some kv.2 else mapGet q (rest.filter fun kv => kv.1 != r)) =
        if kv.1 = q then some kv.2 else mapGet q rest
      by_cases hq : kv.1 = q
      · rw [if_pos hq, if_pos hq]
      · rw [if_neg hq, if_neg hq]
        exact ih

theorem cacheGet_cacheDelete_self (s : St) (r : Nat) :
    cacheGet (cacheDelete s r) r = none := by
  simpa [cacheGet, cacheDelete] using mapGet_filter_self r s.globalInstances

theorem cacheGet_cacheDelete_ne (s : St) (r q : Nat) (h : q ≠ r) :
    cacheGet (cacheDelete s r) q = cacheGet s q := by
  simpa [cacheGet, cacheDelete] using mapGet_filter_ne r q s.globalInstances h

theorem countInv_pushInject (s : St) (ctx : Ctx) (stack : List Nat) (q : Nat) :
    countInv (pushInject s ctx stack) q = countInv s q := rfl

theorem countInv_cacheSet (s : St) (r q : Nat) (v : Val) :
    countInv (cacheSet s r v) q = countInv s q := rfl

theorem countInv_recordInv_self (s : St) (r : Nat) :
    countInv (recordInv s r) r = countInv s r + 1 := by
  simp [countInv, recordInv]

theorem countInv_recordInv_ne (s : St) (r q : Nat) (h : q ≠ r) :
    countInv (recordInv s r) q = countInv s q := by
  simp [countInv, recordInv, List.count_append, List.count_singleton]
  intro hqr
  exact absurd hqr.symm (by simpa using h)

/-! ### Unfolding lemmas for the resolution engine -/

theorem injectInternal_cycle (env : Env) (fuel r : Nat) (ctx : Ctx) (stack : List Nat)
    (s : St) (h : findRefInContext r ctx ∈ stack) :
    injectInternal env (fuel + 1) r ctx stack s =
      (.error (.circular ("Circular dependency detected: " ++
        getRefName (env (findRefInContext r ctx)))), s) := by
  simp [injectInternal, h]

theorem injectInternal_hit (env : Env) (fuel r : Nat) (ctx : Ctx) (stack : List Nat)
    (s : St) (v : Val) (h : findRefInContext r ctx ∉ stack)
    (hc : cachedGlobal s (env (findRefInContext r ctx)).mode (findRefInContext r ctx) = some v) :
    injectInternal env (fuel + 1) r ctx stack s = (.ok v, s) := by
  simp [injectInternal, h, hc]

theorem injectInternal_miss (env : Env) (fuel r : Nat) (ctx : Ctx) (stack : List Nat)
    (s : St) (h : findRefInContext r ctx ∉ stack)
    (hc : cachedGlobal s (env (findRefInContext r ctx)).mode (findRefInContext r ctx) = none) :
    injectInternal env (fuel + 1) r ctx stack s =
      construct env (injectInternal env fuel) (findRefInContext r ctx)
        (env (findRefInContext r ctx)) ctx (stack ++ [findRefInContext r ctx]) s := by
  simp [injectInternal, h, hc]

theorem cachedGlobal_standalone (s : St) (r : Nat) :
    cachedGlobal s Mode.standalone r = none := rfl

/-! ### Facts about `finishConstruction` -/

theorem finish_invocations (ref : Nat) (mode : Mode) (si : Nat) (ci : Option Nat)
    (res : Except Err Val) (s : St) :
    (finishConstruction ref mode si ci res s).2.invocations = s.invocations := by
  cases res with
  | error e => cases ci <;> rfl
  | ok v =>
    cases v <;> cases mode <;> cases ci <;> rfl

theorem addHandlerAux_outcome (h : Handler) :
    ∀ (l : List PromiseRec) (n m : Nat),
      ((addHandlerAux h l n).get? m).map (fun rec => rec.outcome) =
        (l.get? m).map (fun rec => rec.outcome) := by
  intro l
  induction l with
  | nil => intro n m; cases n <;> rfl
  | cons rec rest ih =>
    intro n m
    cases n with
    | zero => cases m <;> simp [addHandlerAux]
    | succ k =>
      cases m with
      | zero => simp [addHandlerAux]
      | succ j =>
        have ihj := ih k j
        simpa [addHandlerAux] using ihj

theorem promOutcome_addHandler (s : St) (pid2 : Nat) (h : Handler) (pid : Nat) :
    promOutcome (addHandler s pid2 h) pid = promOutcome s pid := by
  simpa [promOutcome, addHandler] using addHandlerAux_outcome h s.promises pid2 pid

theorem finish_promOutcome (ref : Nat) (mode : Mode) (si : Nat) (ci : Option Nat)
    (res : Except Err Val) (s : St) (pid : Nat) :
    promOutcome (finishConstruction ref mode si ci res s).2 pid = promOutcome s pid := by
  cases res with
  | error e => cases ci <;> rfl
  | ok v =>
    cases v <;> cases mode <;> cases ci <;>
      simp [finishConstruction, isPromiseLike, promOutcome_addHandler] <;> rfl

/-! ### The central invariants of one resolution call

`CallOK env stack s out` bundles what any call of the resolution engine with
cycle-detection stack `stack`, begun in state `s` and producing `out`,
guarantees: cached values are never removed or replaced; providers on the
stack have their cache entry and invocation count untouched; invocation
counts only grow; a cached `global` provider is never re-invoked; a `global`
provider is invoked at most once per call; if a `global` provider was invoked
and the call succeeded, the provider ended up cached; and `standalone`
providers never gain or lose a cache entry. -/

structure CallOK (env : Env) (stack : List Nat) (s : St) (out : Except Err Val × St) : Prop where
  cachePres : ∀ q v, cacheGet s q = some v → cacheGet out.2 q = some v
  stackCache : ∀ q, q ∈ stack → cacheGet out.2 q = cacheGet s q
  stackInv : ∀ q, q ∈ stack → countInv out.2 q = countInv s q
  invMono : ∀ q, countInv s q ≤ countInv out.2 q
  globalNoReinvoke : ∀ q, (env q).mode = Mode.global → (cacheGet s q).isSome →
    countInv out.2 q = countInv s q
  globalAtMostOne : ∀ q, (env q).mode = Mode.global → countInv out.2 q ≤ countInv s q + 1
  globalInvCaches : ∀ q, (env q).mode = Mode.global → countInv s q < countInv out.2 q →
    (∃ w, out.1 = Except.ok w) → (cacheGet out.2 q).isSome
  standaloneCache : ∀ q, (env q).mode = Mode.standalone → cacheGet out.2 q = cacheGet s q

theorem callOK_of_obs (env : Env) (stack : List Nat) (s : St) (out : Except Err Val × St)
    (h1 : out.2.globalInstances = s.globalInstances)
    (h2 : out.2.invocations = s.invocations) : CallOK env stack s out := by
  have hcg : ∀ q, cacheGet out.2 q = cacheGet s q := by
    intro q
    unfold cacheGet
    rw [h1]
  have hci : ∀ q, countInv out.2 q = countInv s q := by
    intro q
    unfold countInv
    rw [h2]
  refine ⟨?_, ?_, ?_, ?_, ?_, ?_, ?_, ?_⟩
  · intro q v hv
    rw [hcg]
    exact hv
  · intro q _
    rw [hcg]
  · intro q _
    rw [hci]
  · intro q
    rw [hci]
  · intro q _ _
    rw [hci]
  · intro q _
    rw [hci]
    exact Nat.le_succ _
  · intro q _ hlt _
    rw [hci q] at hlt
    exact absurd hlt (lt_irrefl _)
  · intro q _
    rw [hcg]

theorem callOK_errorResult (env : Env) (stack : List Nat) (s : St)
    (out : Except Err Val × St) (h : CallOK env stack s out) (e : Err) :
    CallOK env stack s (Except.error e, out.2) := by
  refine ⟨h.cachePres, h.stackCache, h.stackInv, h.invMono, h.globalNoReinvoke,
    h.globalAtMostOne, ?_, h.standaloneCache⟩
  intro q _ _ hok
  obtain ⟨w, hw⟩ := hok
  exact nomatch hw

theorem callOK_comp (env : Env) (stack : List Nat) (s : St)
    (o1 o2 : Except Err Val × St) (res : Except Err Val)
    (h1 : CallOK env stack s o1) (h2 : CallOK env stack o1.2 o2)
    (ho1 : ∃ w, o1.1 = Except.ok w)
    (hres : ∀ w, res = Except.ok w → ∃ w2, o2.1 = Except.ok w2) :
    CallOK env stack s (res, o2.2) := by
  refine ⟨?_, ?_, ?_, ?_, ?_, ?_, ?_, ?_⟩
  · intro q v hv
    exact h2.cachePres q v (h1.cachePres q v hv)
  · intro q hq
    show cacheGet o2.2 q = cacheGet s q
    rw [h2.stackCache q hq, h1.stackCache q hq]
  · intro q hq
    show countInv o2.2 q = countInv s q
    rw [h2.stackInv q hq, h1.stackInv q hq]
  · intro q
    exact le_trans (h1.invMono q) (h2.invMono q)
  · intro q hg hs
    have e1 := h1.globalNoReinvoke q hg hs
    have hs1 : (cacheGet o1.2 q).isSome := by
      obtain ⟨v, hv⟩ := Option.isSome_iff_exists.mp hs
      exact Option.isSome_iff_exists.mpr ⟨v, h1.cachePres q v hv⟩
    have e2 := h2.globalNoReinvoke q hg hs1
    show countInv o2.2 q = countInv s q
    rw [e2, e1]
  · intro q hg
    rcases Nat.lt_or_ge (countInv s q) (countInv o1.2 q) with hlt | hge
    · have hcache1 : (cacheGet o1.2 q).isSome := h1.globalInvCaches q hg hlt ho1
      have e2 := h2.globalNoReinvoke q hg hcache1
      have b1 := h1.globalAtMostOne q hg
      show countInv o2.2 q ≤ countInv s q + 1
      omega
    · have hm := h1.invMono q
      have e1 : countInv o1.2 q = countInv s q := le_antisymm hge hm
      have b2 := h2.globalAtMostOne q hg
      show countInv o2.2 q ≤ countInv s q + 1
      omega
  · intro q hg hlt hok
    obtain ⟨w, hw⟩ := hok
    obtain ⟨w2, hw2⟩ := hres w hw
    rcases Nat.lt_or_ge (countInv o1.2 q) (countInv o2.2 q) with hlt2 | hge2
    · exact h2.globalInvCaches q hg hlt2 ⟨w2, hw2⟩
    · have e2 : countInv o2.2 q = countInv o1.2 q := le_antisymm hge2 (h2.invMono q)
      have hlt1 : countInv s q < countInv o1.2 q := by
        have : countInv s q < countInv o2.2 q := hlt
        omega
      have hc1 : (cacheGet o1.2 q).isSome := h1.globalInvCaches q hg hlt1 ho1
      obtain ⟨v, hv⟩ := Option.isSome_iff_exists.mp hc1
      exact Option.isSome_iff_exists.mpr ⟨v, h2.cachePres q v hv⟩
  · intro q hq
    show cacheGet o2.2 q = cacheGet s q
    rw [h2.standaloneCache q hq, h1.standaloneCache q hq]

theorem evalBody_callOK (env : Env) (f : Nat → Ctx → List Nat → St → Except Err Val × St)
    (stack : List Nat)
    (hf : ∀ r ctx s, CallOK env stack s (f r ctx stack s)) :
    ∀ (body : FBody) (ctx : Ctx) (iid : Nat) (s : St),
      CallOK env stack s (evalBody f body ctx stack iid s) := by
  intro body ctx iid s
  cases body with
  | ret v => exact callOK_of_obs env stack s _ rfl rfl
  | throwF msg => exact callOK_of_obs env stack s _ rfl rfl
  | newObj => exact callOK_of_obs env stack s _ rfl rfl
  | inj r => exact hf r ctx s
  | pairInj r1 r2 =>
    have h1 := hf r1 ctx s
    simp only [evalBody]
    cases hr1 : (f r1 ctx stack s).1 with
    | error e => exact callOK_errorResult env stack s _ h1 e
    | ok v1 =>
      have h2 := hf r2 ctx (f r1 ctx stack s).2
      cases hr2 : (f r2 ctx stack (f r1 ctx stack s).2).1 with
      | error e =>
        exact callOK_comp env stack s _ _ (Except.error e) h1 h2 ⟨v1, hr1⟩
          (fun w hw => nomatch hw)
      | ok v2 =>
        exact callOK_comp env stack s _ _ (Except.ok (Val.pairV v1 v2)) h1 h2 ⟨v1, hr1⟩
          (fun w _ => ⟨v2, hr2⟩)
  | retResolver => exact callOK_of_obs env stack s _ rfl rfl
  | asyncF outcome => exact callOK_of_obs env stack s _ rfl rfl
  | asyncRetResolver => exact callOK_of_obs env stack s _ rfl rfl

theorem finish_err (ref : Nat) (mode : Mode) (si : Nat) (ci : Option Nat) (e : Err) (s : St) :
    finishConstruction ref mode si ci (Except.error e) s =
      (Except.error e, deactivate (deactivateOpt s ci) si) := rfl

theorem finish_ok_pending (ref : Nat) (mode : Mode) (si : Nat) (ci : Option Nat)
    (pid : Nat) (s : St) :
    finishConstruction ref mode si ci (Except.ok (Val.pending pid)) s =
      (Except.ok (Val.pending pid),
        addHandler (if mode = Mode.global then cacheSet s ref (Val.pending pid) else s) pid
          { ref := ref, mode := mode, childInj := ci, selfInj := si }) := rfl

theorem isPromiseLike_some (v : Val) (pid : Nat) (hv : isPromiseLike v = some pid) :
    v = Val.pending pid := by
  cases v <;> simp [isPromiseLike] at hv ⊢ <;> exact hv

theorem finish_ok_sync (ref : Nat) (mode : Mode) (si : Nat) (ci : Option Nat)
    (v : Val) (s : St) (hv : isPromiseLike v = none) :
    finishConstruction ref mode si ci (Except.ok v) s =
      (Except.ok v,
        if mode = Mode.global
        then cacheSet (deactivate (deactivateOpt s ci) si) ref v
        else deactivate (deactivateOpt s ci) si) := by
  cases v
  case pending pid => simp [isPromiseLike] at hv
  all_goals by_cases hm : mode = Mode.global <;> simp [finishConstruction, isPromiseLike, hm]

theorem finish_ok_iff (ref : Nat) (mode : Mode) (si : Nat) (ci : Option Nat)
    (res : Except Err Val) (s : St) :
    (∃ w, (finishConstruction ref mode si ci res s).1 = Except.ok w) ↔
      ∃ v, res = Except.ok v := by
  cases res with
  | error e =>
    constructor
    · intro hex
      obtain ⟨w, hw⟩ := hex
      rw [finish_err] at hw
      exact nomatch hw
    · intro hex
      obtain ⟨v2, hv2⟩ := hex
      exact nomatch hv2
  | ok v =>
    constructor
    · intro _
      exact ⟨v, rfl⟩
    · intro _
      cases hv : isPromiseLike v with
      | some pid =>
        rw [isPromiseLike_some v pid hv, finish_ok_pending]
        exact ⟨Val.pending pid, rfl⟩
      | none =>
        rw [finish_ok_sync ref mode si ci v s hv]
        exact ⟨v, rfl⟩

theorem finish_countInv (ref : Nat) (mode : Mode) (si : Nat) (ci : Option Nat)
    (res : Except Err Val) (s : St) (q : Nat) :
    countInv (finishConstruction ref mode si ci res s).2 q = countInv s q := by
  unfold countInv
  rw [finish_invocations]

theorem finish_cacheGet_ne (ref : Nat) (mode : Mode) (si : Nat) (ci : Option Nat)
    (res : Except Err Val) (s : St) (q : Nat) (hq : q ≠ ref) :
    cacheGet (finishConstruction ref mode si ci res s).2 q = cacheGet s q := by
  cases res with
  | error e =>
    rw [finish_err]
    show cacheGet (deactivate (deactivateOpt s ci) si) q = cacheGet s q
    rw [cacheGet_deactivate, cacheGet_deactivateOpt]
  | ok v =>
    cases hv : isPromiseLike v with
    | some pid =>
      rw [isPromiseLike_some v pid hv, finish_ok_pending]
      show cacheGet (addHandler (if mode = Mode.global
          then cacheSet s ref (Val.pending pid) else s) pid
          { ref := ref, mode := mode, childInj := ci, selfInj := si }) q = cacheGet s q
      rw [cacheGet_addHandler]
      by_cases hm : mode = Mode.global
      · rw [if_pos hm, cacheGet_cacheSet_ne _ _ _ _ hq]
      · rw [if_neg hm]
    | none =>
      rw [finish_ok_sync ref mode si ci v s hv]
      show cacheGet (if mode = Mode.global
          then cacheSet (deactivate (deactivateOpt s ci) si) ref v
          else deactivate (deactivateOpt s ci) si) q = cacheGet s q
      by_cases hm : mode = Mode.global
      · rw [if_pos hm, cacheGet_cacheSet_ne _ _ _ _ hq, cacheGet_deactivate,
          cacheGet_deactivateOpt]
      · rw [if_neg hm, cacheGet_deactivate, cacheGet_deactivateOpt]

theorem standalone_ne_global : Mode.standalone ≠ Mode.global := fun h => Mode.noConfusion h

theorem finish_cacheGet_standalone (ref : Nat) (si : Nat) (ci : Option Nat)
    (res : Except Err Val) (s : St) (q : Nat) :
    cacheGet (finishConstruction ref Mode.standalone si ci res s).2 q = cacheGet s q := by
  cases res with
  | error e =>
    rw [finish_err]
    show cacheGet (deactivate (deactivateOpt s ci) si) q = cacheGet s q
    rw [cacheGet_deactivate, cacheGet_deactivateOpt]
  | ok v =>
    cases hv : isPromiseLike v with
    | some pid =>
      rw [isPromiseLike_some v pid hv, finish_ok_pending]
      show cacheGet (addHandler (if Mode.standalone = Mode.global
          then cacheSet s ref (Val.pending pid) else s) pid
          { ref := ref, mode := Mode.standalone, childInj := ci, selfInj := si }) q =
        cacheGet s q
      rw [cacheGet_addHandler, if_neg standalone_ne_global]
    | none =>
      rw [finish_ok_sync ref Mode.standalone si ci v s hv]
      show cacheGet (if Mode.standalone = Mode.global
          then cacheSet (deactivate (deactivateOpt s ci) si) ref v
          else deactivate (deactivateOpt s ci) si) q = cacheGet s q
      rw [if_neg standalone_ne_global, cacheGet_deactivate, cacheGet_deactivateOpt]

theorem finish_global_ok (ref : Nat) (si : Nat) (ci : Option Nat)
    (res : Except Err Val) (s : St) (w : Val)
    (h : (finishConstruction ref Mode.global si ci res s).1 = Except.ok w) :
    cacheGet (finishConstruction ref Mode.global si ci res s).2 ref = some w := by
  cases res with
  | error e =>
    rw [finish_err] at h
    exact nomatch h
  | ok v =>
    cases hv : isPromiseLike v with
    | some pid =>
      rw [isPromiseLike_some v pid hv] at h ⊢
      rw [finish_ok_pending] at h ⊢
      have hw : Val.pending pid = w := by
        simpa using h
      rw [← hw]
      show cacheGet (addHandler (if Mode.global = Mode.global
          then cacheSet s ref (Val.pending pid) else s) pid
          { ref := ref, mode := Mode.global, childInj := ci, selfInj := si }) ref =
        some (Val.pending pid)
      rw [cacheGet_addHandler, if_pos rfl, cacheGet_cacheSet_self]
    | none =>
      rw [finish_ok_sync ref Mode.global si ci v s hv] at h ⊢
      have hw : v = w := by
        simpa using h
      rw [← hw]
      show cacheGet (if Mode.global = Mode.global
          then cacheSet (deactivate (deactivateOpt s ci) si) ref v
          else deactivate (deactivateOpt s ci) si) ref = some v
      rw [if_pos rfl, cacheGet_cacheSet_self]

theorem construct_nil (env : Env) (f : Nat → Ctx → List Nat → St → Except Err Val × St)
    (ref : Nat) (p : Provider) (ctx : Ctx) (ns : List Nat) (s : St)
    (hp : p.providers = []) :
    construct env f ref p ctx ns s =
      finishConstruction ref p.mode s.injs.length none
        (evalBody f (p.factory (countInv s ref)) ctx ns s.injs.length
          (recordInv (pushInject s ctx ns) ref)).1
        (evalBody f (p.factory (countInv s ref)) ctx ns s.injs.length
          (recordInv (pushInject s ctx ns) ref)).2 := by
  simp only [construct, hp]
  rfl

theorem construct_cons (env : Env) (f : Nat → Ctx → List Nat → St → Except Err Val × St)
    (ref : Nat) (p : Provider) (ctx : Ctx) (ns : List Nat) (s : St)
    (q : Nat) (qs : List Nat) (hp : p.providers = q :: qs) :
    construct env f ref p ctx ns s =
      finishConstruction ref p.mode s.injs.length (some (pushInject s ctx ns).injs.length)
        (evalBody f (p.factory (countInv s ref)) (Ctx.child (buildLocals env (q :: qs)) ctx) ns
          (pushInject s ctx ns).injs.length
          (recordInv (pushInject (pushInject s ctx ns)
            (Ctx.child (buildLocals env (q :: qs)) ctx) ns) ref)).1
        (evalBody f (p.factory (countInv s ref)) (Ctx.child (buildLocals env (q :: qs)) ctx) ns
          (pushInject s ctx ns).injs.length
          (recordInv (pushInject (pushInject s ctx ns)
            (Ctx.child (buildLocals env (q :: qs)) ctx) ns) ref)).2 := by
  simp only [construct, hp]
  rfl

theorem countInv_append_self (s : St) (s2 : St) (ref : Nat)
    (h : s2.invocations = s.invocations ++ [ref]) :
    countInv s2 ref = countInv s ref + 1 := by
  unfold countInv
  rw [h, List.count_append]
  simp

theorem countInv_append_ne (s : St) (s2 : St) (ref q : Nat)
    (h : s2.invocations = s.invocations ++ [ref]) (hq : q ≠ ref) :
    countInv s2 q = countInv s q := by
  unfold countInv
  rw [h, List.count_append]
  simp [List.count_singleton, hq]

/-- Transport of the call invariants through the construction phase: the
state evolves from `s` through bookkeeping to `s2` (inject allocation plus
the invocation record of `ref`), the factory body runs from `s2` to
`bodyOut`, and `finishConstruction` completes the call. -/
theorem construct_step_callOK (env : Env) (ref : Nat) (mode : Mode) (si : Nat)
    (ci : Option Nat) (stack : List Nat) (s s2 : St) (bodyOut : Except Err Val × St)
    (hcache2 : s2.globalInstances = s.globalInstances)
    (hinv2 : s2.invocations = s.invocations ++ [ref])
    (hbody : CallOK env (stack ++ [ref]) s2 bodyOut)
    (hmem : ref ∉ stack)
    (hmode : mode = (env ref).mode)
    (hc : cachedGlobal s (env ref).mode ref = none) :
    CallOK env stack s (finishConstruction ref mode si ci bodyOut.1 bodyOut.2) := by
  have cget2 : ∀ q, cacheGet s2 q = cacheGet s q := by
    intro q
    unfold cacheGet
    rw [hcache2]
  have hgc : (env ref).mode = Mode.global → cacheGet s ref = none := by
    intro hg
    unfold cachedGlobal at hc
    rw [hg, if_pos rfl] at hc
    exact hc
  have hrefmem : ref ∈ stack ++ [ref] := by simp
  have houtinv : ∀ q, countInv (finishConstruction ref mode si ci bodyOut.1 bodyOut.2).2 q
      = countInv bodyOut.2 q := fun q => finish_countInv ref mode si ci bodyOut.1 bodyOut.2 q
  refine ⟨?_, ?_, ?_, ?_, ?_, ?_, ?_, ?_⟩
  · -- cachePres
    intro q v hv
    have hvB : cacheGet bodyOut.2 q = some v := hbody.cachePres q v (by rw [cget2]; exact hv)
    by_cases hq : q = ref
    · subst hq
      cases hm : (env q).mode with
      | global =>
        exact absurd hv (by rw [hgc hm]; exact fun hh => nomatch hh)
      | standalone =>
        rw [hmode, hm, finish_cacheGet_standalone]
        exact hvB
    · rw [finish_cacheGet_ne _ _ _ _ _ _ _ hq]
      exact hvB
  · -- stackCache
    intro q hq
    have hqref : q ≠ ref := fun hh => hmem (hh ▸ hq)
    rw [finish_cacheGet_ne _ _ _ _ _ _ _ hqref,
      hbody.stackCache q (List.mem_append_left _ hq), cget2]
  · -- stackInv
    intro q hq
    have hqref : q ≠ ref := fun hh => hmem (hh ▸ hq)
    rw [houtinv, hbody.stackInv q (List.mem_append_left _ hq),
      countInv_append_ne s s2 ref q hinv2 hqref]
  · -- invMono
    intro q
    have h2 : countInv s q ≤ countInv s2 q := by
      by_cases hq : q = ref
      · rw [hq, countInv_append_self s s2 ref hinv2]
        exact Nat.le_succ _
      · rw [countInv_append_ne s s2 ref q hinv2 hq]
    rw [houtinv]
    exact le_trans h2 (hbody.invMono q)
  · -- globalNoReinvoke
    intro q hg hs
    by_cases hq : q = ref
    · subst hq
      exact absurd hs (by rw [hgc hg]; exact fun hh => nomatch hh)
    · have hs2 : (cacheGet s2 q).isSome := by rw [cget2]; exact hs
      rw [houtinv, hbody.globalNoReinvoke q hg hs2,
        countInv_append_ne s s2 ref q hinv2 hq]
  · -- globalAtMostOne
    intro q hg
    rw [houtinv]
    by_cases hq : q = ref
    · subst hq
      rw [hbody.stackInv q hrefmem, countInv_append_self s s2 q hinv2]
    · have := hbody.globalAtMostOne q hg
      rw [countInv_append_ne s s2 ref q hinv2 hq] at this
      exact this
  · -- globalInvCaches
    intro q hg hlt hok
    have hbok : ∃ v, bodyOut.1 = Except.ok v :=
      (finish_ok_iff ref mode si ci bodyOut.1 bodyOut.2).mp hok
    by_cases hq : q = ref
    · subst hq
      have hmg : mode = Mode.global := by rw [hmode]; exact hg
      subst hmg
      obtain ⟨w, hw⟩ := hok
      rw [finish_global_ok q si ci bodyOut.1 bodyOut.2 w hw]
      rfl
    · rw [houtinv] at hlt
      have hlt2 : countInv s2 q < countInv bodyOut.2 q := by
        rw [countInv_append_ne s s2 ref q hinv2 hq]
        exact hlt
      have hsB : (cacheGet bodyOut.2 q).isSome :=
        hbody.globalInvCaches q hg hlt2 hbok
      rw [finish_cacheGet_ne _ _ _ _ _ _ _ hq]
      exact hsB
  · -- standaloneCache
    intro q hq
    by_cases hqr : q = ref
    · subst hqr
      have hms : mode = Mode.standalone := by rw [hmode]; exact hq
      subst hms
      rw [finish_cacheGet_standalone, hbody.standaloneCache q hq, cget2]
    · rw [finish_cacheGet_ne _ _ _ _ _ _ _ hqr, hbody.standaloneCache q hq, cget2]

/-- The call invariants hold for every call of the resolution engine. -/
theorem injectInternal_callOK (env : Env) :
    ∀ (fuel r : Nat) (ctx : Ctx) (stack : List Nat) (s : St),
      CallOK env stack s (injectInternal env fuel r ctx stack s) := by
  intro fuel
  induction fuel with
  | zero =>
    intro r ctx stack s
    exact callOK_of_obs env stack s _ rfl rfl
  | succ n ih =>
    intro r ctx stack s
    by_cases hmem : findRefInContext r ctx ∈ stack
    · rw [injectInternal_cycle env n r ctx stack s hmem]
      exact callOK_of_obs env stack s _ rfl rfl
    · cases hc : cachedGlobal s (env (findRefInContext r ctx)).mode (findRefInContext r ctx) with
      | some v =>
        rw [injectInternal_hit env n r ctx stack s v hmem hc]
        exact callOK_of_obs env stack s _ rfl rfl
      | none =>
        rw [injectInternal_miss env n r ctx stack s hmem hc]
        have hf : ∀ r2 c2 s2, CallOK env (stack ++ [findRefInContext r ctx]) s2
            (injectInternal env n r2 c2 (stack ++ [findRefInContext r ctx]) s2) :=
          fun r2 c2 s2 => ih r2 c2 (stack ++ [findRefInContext r ctx]) s2
        cases hp : (env (findRefInContext r ctx)).providers with
        | nil =>
          rw [construct_nil env _ (findRefInContext r ctx) (env (findRefInContext r ctx))
            ctx (stack ++ [findRefInContext r ctx]) s hp]
          exact construct_step_callOK env (findRefInContext r ctx)
            (env (findRefInContext r ctx)).mode s.injs.length none stack s
            (recordInv (pushInject s ctx (stack ++ [findRefInContext r ctx]))
              (findRefInContext r ctx))
            _ rfl rfl (evalBody_callOK env _ _ hf _ _ _ _) hmem rfl hc
        | cons q qs =>
          rw [construct_cons env _ (findRefInContext r ctx) (env (findRefInContext r ctx))
            ctx (stack ++ [findRefInContext r ctx]) s q qs hp]
          exact construct_step_callOK env (findRefInContext r ctx)
            (env (findRefInContext r ctx)).mode s.injs.length
            (some (pushInject s ctx (stack ++ [findRefInContext r ctx])).injs.length) stack s
            (recordInv (pushInject (pushInject s ctx (stack ++ [findRefInContext r ctx]))
              (Ctx.child (buildLocals env (q :: qs)) ctx)
              (stack ++ [findRefInContext r ctx])) (findRefInContext r ctx))
            _ rfl rfl (evalBody_callOK env _ _ hf _ _ _ _) hmem rfl hc

/-- Uniform post-hoc view of the construction phase: whatever the `providers`
branch, the call is a `finishConstruction` of a factory-body run whose start
state differs from `s` only by inject-record bookkeeping and the one recorded
invocation of `ref`. -/
theorem construct_post (env : Env) (f : Nat → Ctx → List Nat → St → Except Err Val × St)
    (ref : Nat) (p : Provider) (ctx : Ctx) (stack : List Nat) (s : St)
    (hOKf : ∀ r2 c2 s2, CallOK env (stack ++ [ref]) s2 (f r2 c2 (stack ++ [ref]) s2)) :
    ∃ (si : Nat) (ci : Option Nat) (bodyOut : Except Err Val × St) (s2 : St),
      construct env f ref p ctx (stack ++ [ref]) s =
        finishConstruction ref p.mode si ci bodyOut.1 bodyOut.2 ∧
      CallOK env (stack ++ [ref]) s2 bodyOut ∧
      s2.globalInstances = s.globalInstances ∧
      s2.invocations = s.invocations ++ [ref] := by
  cases hp : p.providers with
  | nil =>
    refine ⟨s.injs.length, none,
      evalBody f (p.factory (countInv s ref)) ctx (stack ++ [ref]) s.injs.length
        (recordInv (pushInject s ctx (stack ++ [ref])) ref),
      recordInv (pushInject s ctx (stack ++ [ref])) ref,
      construct_nil env f ref p ctx (stack ++ [ref]) s hp, ?_, rfl, rfl⟩
    exact evalBody_callOK env f (stack ++ [ref]) hOKf _ _ _ _
  | cons q qs =>
    refine ⟨s.injs.length, some (pushInject s ctx (stack ++ [ref])).injs.length,
      evalBody f (p.factory (countInv s ref)) (Ctx.child (buildLocals env (q :: qs)) ctx)
        (stack ++ [ref]) (pushInject s ctx (stack ++ [ref])).injs.length
        (recordInv (pushInject (pushInject s ctx (stack ++ [ref]))
          (Ctx.child (buildLocals env (q :: qs)) ctx) (stack ++ [ref])) ref),
      recordInv (pushInject (pushInject s ctx (stack ++ [ref]))
        (Ctx.child (buildLocals env (q :: qs)) ctx) (stack ++ [ref])) ref,
      construct_cons env f ref p ctx (stack ++ [ref]) s q qs hp, ?_, rfl, rfl⟩
    exact evalBody_callOK env f (stack ++ [ref]) hOKf _ _ _ _

/-- A cache hit: when the effective provider has mode `global`, is not on the
stack, and the cache holds an entry for it, the call returns that entry and
leaves the state untouched — the factory is not re-invoked and no dependency
is re-walked. -/
theorem inject_cache_hit (env : Env) (fuel r : Nat) (ctx : Ctx) (stack : List Nat)
    (s : St) (v : Val)
    (hmode : (env (findRefInContext r ctx)).mode = Mode.global)
    (hmem : findRefInContext r ctx ∉ stack)
    (hcache : cacheGet s (findRefInContext r ctx) = some v) :
    injectInternal env (fuel + 1) r ctx stack s = (Except.ok v, s) := by
  apply injectInternal_hit env fuel r ctx stack s v hmem
  unfold cachedGlobal
  rw [hmode, if_pos rfl]
  exact hcache

/-- Any successful resolution of a `global`-mode effective provider leaves
the returned instance in the global cache, keyed by the effective provider's
identity — whatever the context (override scope or not) and stack were. -/
theorem inject_global_caches (env : Env) (fuel r : Nat) (ctx : Ctx) (stack : List Nat)
    (s : St) (v : Val)
    (hmode : (env (findRefInContext r ctx)).mode = Mode.global)
    (hok : (injectInternal env fuel r ctx stack s).1 = Except.ok v) :
    cacheGet (injectInternal env fuel r ctx stack s).2 (findRefInContext r ctx) = some v := by
  cases fuel with
  | zero => simp [injectInternal] at hok
  | succ n =>
    by_cases hmem : findRefInContext r ctx ∈ stack
    · rw [injectInternal_cycle env n r ctx stack s hmem] at hok
      exact nomatch hok
    · cases hcg : cachedGlobal s (env (findRefInContext r ctx)).mode (findRefInContext r ctx) with
      | some w =>
        rw [injectInternal_hit env n r ctx stack s w hmem hcg] at hok ⊢
        have hwv : w = v := by simpa using hok
        subst hwv
        unfold cachedGlobal at hcg
        rw [hmode, if_pos rfl] at hcg
        exact hcg
      | none =>
        rw [injectInternal_miss env n r ctx stack s hmem hcg] at hok ⊢
        obtain ⟨si, ci, B, s2, heq, _, _, _⟩ :=
          construct_post env (injectInternal env n) (findRefInContext r ctx)
            (env (findRefInContext r ctx)) ctx stack s
            (fun r2 c2 s2 => injectInternal_callOK env n r2 c2
              (stack ++ [findRefInContext r ctx]) s2)
        rw [heq] at hok ⊢
        rw [hmode] at hok ⊢
        exact finish_global_ok _ _ _ _ _ v hok

/-- A failed resolution never changes the cache entry of the effective
provider: a synchronously-thrown factory error (or a detected cycle) leaves
the entry for that provider exactly as it was. -/
theorem inject_error_cache (env : Env) (fuel r : Nat) (ctx : Ctx) (stack : List Nat)
    (s : St) (e : Err)
    (herr : (injectInternal env fuel r ctx stack s).1 = Except.error e) :
    cacheGet (injectInternal env fuel r ctx stack s).2 (findRefInContext r ctx) =
      cacheGet s (findRefInContext r ctx) := by
  cases fuel with
  | zero => rfl
  | succ n =>
    by_cases hmem : findRefInContext r ctx ∈ stack
    · rw [injectInternal_cycle env n r ctx stack s hmem]
    · cases hcg : cachedGlobal s (env (findRefInContext r ctx)).mode (findRefInContext r ctx) with
      | some w =>
        rw [injectInternal_hit env n r ctx stack s w hmem hcg]
      | none =>
        rw [injectInternal_miss env n r ctx stack s hmem hcg] at herr ⊢
        obtain ⟨si, ci, B, s2, heq, hOK, hgc2, _⟩ :=
          construct_post env (injectInternal env n) (findRefInContext r ctx)
            (env (findRefInContext r ctx)) ctx stack s
            (fun r2 c2 s2 => injectInternal_callOK env n r2 c2
              (stack ++ [findRefInContext r ctx]) s2)
        rw [heq] at herr ⊢
        cases hB : B.1 with
        | error e2 =>
          rw [finish_err]
          show cacheGet (deactivate (deactivateOpt B.2 ci) si) (findRefInContext r ctx) =
            cacheGet s (findRefInContext r ctx)
          rw [cacheGet_deactivate, cacheGet_deactivateOpt,
            hOK.stackCache (findRefInContext r ctx) (by simp)]
          unfold cacheGet
          rw [hgc2]
        | ok w =>
          obtain ⟨w2, hw2⟩ := (finish_ok_iff (findRefInContext r ctx)
            (env (findRefInContext r ctx)).mode si ci B.1 B.2).mpr ⟨w, hB⟩
          rw [herr] at hw2
          exact nomatch hw2

/-- A resolution of a `standalone`-mode effective provider that passes the
cycle check always invokes the factory (exactly once at this level) and never
touches the cache entry of the provider. -/
theorem inject_standalone_invokes (env : Env) (fuel r : Nat) (ctx : Ctx)
    (stack : List Nat) (s : St)
    (hmode : (env (findRefInContext r ctx)).mode = Mode.standalone)
    (hmem : findRefInContext r ctx ∉ stack) :
    countInv (injectInternal env (fuel + 1) r ctx stack s).2 (findRefInContext r ctx) =
      countInv s (findRefInContext r ctx) + 1 ∧
    cacheGet (injectInternal env (fuel + 1) r ctx stack s).2 (findRefInContext r ctx) =
      cacheGet s (findRefInContext r ctx) := by
  have hcg : cachedGlobal s (env (findRefInContext r ctx)).mode (findRefInContext r ctx)
      = none := by
    rw [hmode]
    rfl
  rw [injectInternal_miss env fuel r ctx stack s hmem hcg]
  obtain ⟨si, ci, B, s2, heq, hOK, hgc2, hinv2⟩ :=
    construct_post env (injectInternal env fuel) (findRefInContext r ctx)
      (env (findRefInContext r ctx)) ctx stack s
      (fun r2 c2 s2 => injectInternal_callOK env fuel r2 c2
        (stack ++ [findRefInContext r ctx]) s2)
  rw [heq]
  constructor
  · rw [finish_countInv, hOK.stackInv (findRefInContext r ctx) (by simp),
      countInv_append_self s s2 (findRefInContext r ctx) hinv2]
  · rw [hmode, finish_cacheGet_standalone,
      hOK.stackCache (findRefInContext r ctx) (by simp)]
    unfold cacheGet
    rw [hgc2]

theorem get?_append_length {α : Type} (l : List α) (a : α) :
    (l ++ [a]).get? l.length = some a := by
  induction l with
  | nil => rfl
  | cons x xs ih => simpa using ih

theorem promOutcome_cacheSet (s : St) (r : Nat) (v : Val) (pid : Nat) :
    promOutcome (cacheSet s r v) pid = promOutcome s pid := rfl

theorem finish_ok_obj (ref : Nat) (mode : Mode) (si : Nat) (ci : Option Nat)
    (n : Nat) (s : St) :
    finishConstruction ref mode si ci (Except.ok (Val.obj n)) s =
      (Except.ok (Val.obj n),
        if mode = Mode.global
        then cacheSet (deactivate (deactivateOpt s ci) si) ref (Val.obj n)
        else deactivate (deactivateOpt s ci) si) :=
  finish_ok_sync ref mode si ci (Val.obj n) s rfl

theorem promOutcome_pushPromise (s : St) (o : Except String Val) :
    promOutcome (pushPromise s o) s.promises.length = some o := by
  show ((s.promises ++ [({ outcome := o, settled := false, handlers := [] } : PromiseRec)]).get?
    s.promises.length).map (fun rec : PromiseRec => rec.outcome) = some o
  rw [get?_append_length]
  rfl

/-- The asynchronous path of the engine for a `global`-mode provider whose
factory returns a promise: the call returns the in-flight promise, stores it
in the cache immediately (before it settles), records one factory
invocation, and the promise's eventual outcome is the factory's. -/
theorem inject_asyncF (env : Env) (fuel r : Nat) (ctx : Ctx) (s : St)
    (out : Except String Val)
    (hmode : (env (findRefInContext r ctx)).mode = Mode.global)
    (hprov : (env (findRefInContext r ctx)).providers = [])
    (hfac : (env (findRefInContext r ctx)).factory (countInv s (findRefInContext r ctx)) =
      FBody.asyncF out)
    (hmiss : cacheGet s (findRefInContext r ctx) = none) :
    (injectInternal env (fuel + 1) r ctx [] s).1 =
      Except.ok (Val.pending s.promises.length) ∧
    cacheGet (injectInternal env (fuel + 1) r ctx [] s).2 (findRefInContext r ctx) =
      some (Val.pending s.promises.length) ∧
    countInv (injectInternal env (fuel + 1) r ctx [] s).2 (findRefInContext r ctx) =
      countInv s (findRefInContext r ctx) + 1 ∧
    promOutcome (injectInternal env (fuel + 1) r ctx [] s).2 s.promises.length = some out := by
  have hmem : findRefInContext r ctx ∉ ([] : List Nat) := List.not_mem_nil _
  have hcg : cachedGlobal s (env (findRefInContext r ctx)).mode (findRefInContext r ctx)
      = none := by
    unfold cachedGlobal
    rw [hmode, if_pos rfl]
    exact hmiss
  rw [injectInternal_miss env fuel r ctx [] s hmem hcg,
    construct_nil env _ _ _ _ _ _ hprov, hfac, hmode]
  simp only [evalBody]
  rw [finish_ok_pending, if_pos rfl]
  refine ⟨rfl, ?_, ?_, ?_⟩
  · rw [cacheGet_addHandler, cacheGet_cacheSet_self]
    rfl
  · exact countInv_append_self s _ _ rfl
  · rw [promOutcome_addHandler, promOutcome_cacheSet]
    exact promOutcome_pushPromise _ _

/-- The synchronous `standalone` path with an allocating factory: the call
returns a freshly allocated object, steps the allocation counter, leaves the
cache untouched, and records one factory invocation. -/
theorem inject_newObj (env : Env) (fuel r : Nat) (ctx : Ctx) (s : St)
    (hmode : (env (findRefInContext r ctx)).mode = Mode.standalone)
    (hprov : (env (findRefInContext r ctx)).providers = [])
    (hfac : ∀ i, (env (findRefInContext r ctx)).factory i = FBody.newObj) :
    (injectInternal env (fuel + 1) r ctx [] s).1 = Except.ok (Val.obj s.nextObj) ∧
    (injectInternal env (fuel + 1) r ctx [] s).2.globalInstances = s.globalInstances ∧
    (injectInternal env (fuel + 1) r ctx [] s).2.nextObj = s.nextObj + 1 ∧
    countInv (injectInternal env (fuel + 1) r ctx [] s).2 (findRefInContext r ctx) =
      countInv s (findRefInContext r ctx) + 1 := by
  have hmem : findRefInContext r ctx ∉ ([] : List Nat) := List.not_mem_nil _
  have hcg : cachedGlobal s (env (findRefInContext r ctx)).mode (findRefInContext r ctx)
      = none := by
    rw [hmode]
    rfl
  rw [injectInternal_miss env fuel r ctx [] s hmem hcg,
    construct_nil env _ _ _ _ _ _ hprov, hfac, hmode]
  simp only [evalBody]
  rw [finish_ok_obj, if_neg standalone_ne_global]
  refine ⟨rfl, rfl, rfl, ?_⟩
  exact countInv_append_self s _ _ rfl

/-! ### Concrete scenario environments (mirroring the repository's tests) -/

/-- Default provider for unused reference ids. -/
def defaultP : Provider := { factory := fun _ => FBody.ret (Val.natV 0) }

/-- First-write-wins scenario: `0` a dependency, `1` an override of `0`,
`2` a `global` service resolving `0`, `3` a wrapper resolving `2` under the
local override (`providers := [1]`). -/
def envFW : Env := fun r =>
  match r with
  | 0 => { factory := fun _ => FBody.ret (Val.str "base") }
  | 1 => { factory := fun _ => FBody.ret (Val.str "over"), overrides := some 0 }
  | 2 => { factory := fun _ => FBody.inj 0 }
  | 3 => { factory := fun _ => FBody.inj 2, providers := [1] }
  | _ => defaultP

/-- Two providers resolving each other, plus an unrelated provider `2`. -/
def envCycle : Env := fun r =>
  match r with
  | 0 => { fname := "ServiceA", factory := fun _ => FBody.inj 1 }
  | 1 => { fname := "ServiceB", factory := fun _ => FBody.inj 0 }
  | 2 => { factory := fun _ => FBody.ret (Val.natV 7) }
  | _ => defaultP

/-- A self-referencing provider with an anonymous factory. -/
def envSelfCycle : Env := fun r =>
  match r with
  | 0 => { factory := fun _ => FBody.inj 0 }
  | _ => defaultP

/-- An asynchronous `global` provider that succeeds. -/
def envAsyncOk : Env := fun r =>
  match r with
  | 0 => { factory := fun _ => FBody.asyncF (Except.ok (Val.str "v")) }
  | _ => defaultP

/-- An asynchronous `global` provider that fails on its first invocation and
succeeds on its second. -/
def envRetry : Env := fun r =>
  match r with
  | 0 => { factory := fun i =>
      if i = 0 then FBody.asyncF (Except.error "Temporary failure")
      else FBody.asyncF (Except.ok (Val.str "recovered")) }
  | _ => defaultP

/-- Override shadowing: `0` base, `1` overrides `0`, `2` resolves `0` under
the override, `3` resolves `2` and then `0` (the caller). -/
def envShadow : Env := fun r =>
  match r with
  | 0 => { factory := fun _ => FBody.ret (Val.str "B") }
  | 1 => { factory := fun _ => FBody.ret (Val.str "X"), overrides := some 0 }
  | 2 => { factory := fun _ => FBody.inj 0, providers := [1] }
  | 3 => { factory := fun _ => FBody.pairInj 2 0 }
  | _ => defaultP

/-- A `standalone` provider whose factory allocates a fresh object. -/
def envScoped : Env := fun r =>
  match r with
  | 0 => { mode := Mode.standalone, factory := fun _ => FBody.newObj }
  | _ => defaultP

/-- A provider whose factory stashes its resolver capability (returned
synchronously), with a local override in scope. -/
def envCapture : Env := fun r =>
  match r with
  | 1 => { factory := fun _ => FBody.ret (Val.str "B") }
  | 2 => { factory := fun _ => FBody.ret (Val.str "X"), overrides := some 1 }
  | 3 => { factory := fun _ => FBody.retResolver, providers := [2] }
  | _ => defaultP

/-- A provider whose asynchronous result delivers its captured resolver. -/
def envCaptureAsync : Env := fun r =>
  match r with
  | 0 => { factory := fun _ => FBody.asyncRetResolver }
  | _ => defaultP

/-- A provider whose factory always throws synchronously. -/
def envThrow : Env := fun r =>
  match r with
  | 0 => { factory := fun _ => FBody.throwF "boom" }
  | _ => defaultP

/-! ### The claims -/

/-- C1: first-write-wins for shared-mode caching.  Any successful resolution
of a `global`-mode effective provider — the context is arbitrary, so in
particular one whose construction runs while a local override scope is
active for one of its dependencies — stores the (override-influenced)
instance in the global instance cache keyed by the provider's identity
(first conjunct); every later resolution that still sees that entry, from
any context in which the provider is effective and any stack not containing
it — in particular a top-level resolution outside any override scope —
returns the very same cached instance with the state untouched, so the
factory is not re-invoked (second conjunct); and the entry survives any
intervening resolution (third conjunct). -/
theorem firstWriteWins (env : Env) (fuel r : Nat) (ctx : Ctx) (stack : List Nat)
    (s : St) (v : Val)
    (hmode : (env (findRefInContext r ctx)).mode = Mode.global)
    (hok : (injectInternal env fuel r ctx stack s).1 = Except.ok v) :
    cacheGet (injectInternal env fuel r ctx stack s).2 (findRefInContext r ctx) = some v ∧
    (∀ (fuel2 r2 : Nat) (ctx2 : Ctx) (stack2 : List Nat) (s2 : St),
      findRefInContext r2 ctx2 = findRefInContext r ctx →
      findRefInContext r ctx ∉ stack2 →
      cacheGet s2 (findRefInContext r ctx) = some v →
      injectInternal env (fuel2 + 1) r2 ctx2 stack2 s2 = (Except.ok v, s2)) ∧
    (∀ (fuel3 r3 : Nat) (ctx3 : Ctx) (stack3 : List Nat),
      cacheGet (injectInternal env fuel3 r3 ctx3 stack3
        (injectInternal env fuel r ctx stack s).2).2 (findRefInContext r ctx) = some v) := by
  have h1 := inject_global_caches env fuel r ctx stack s v hmode hok
  refine ⟨h1, ?_, ?_⟩
  · intro fuel2 r2 ctx2 stack2 s2 heff hmem hc
    exact inject_cache_hit env fuel2 r2 ctx2 stack2 s2 v (by rw [heff]; exact hmode)
      (by rw [heff]; exact hmem) (by rw [heff]; exact hc)
  · intro fuel3 r3 ctx3 stack3
    exact (injectInternal_callOK env fuel3 r3 ctx3 stack3 _).cachePres _ v h1

/-- C1 witness: provider `2` of `envFW` is constructed inside an override
scope for its dependency `0` (the child context maps `0` to the override
`1`); the override-influenced instance `"over"` is cached under `2`, and
a later top-level resolution of `2` outside any override scope returns it
with the state untouched. -/
theorem firstWriteWins_witness :
    cacheGet (injectInternal envFW 5 2 (Ctx.child (buildLocals envFW [1]) Ctx.root)
      [] emptySt).2 2 = some (Val.str "over") ∧
    injectInternal envFW 4 2 Ctx.root []
      (injectInternal envFW 5 2 (Ctx.child (buildLocals envFW [1]) Ctx.root) [] emptySt).2 =
      (Except.ok (Val.str "over"),
        (injectInternal envFW 5 2 (Ctx.child (buildLocals envFW [1]) Ctx.root) [] emptySt).2) := by
  have h := firstWriteWins envFW 5 2 (Ctx.child (buildLocals envFW [1]) Ctx.root) []
    emptySt (Val.str "over") (by decide) (by decide)
  exact ⟨h.1, h.2.1 3 2 Ctx.root [] _ (by decide) (by decide) h.1⟩

/-- C2: async single-flight.  For a `global`-mode effective provider (no
local providers) whose factory returns an asynchronous result, the first
resolution invokes the factory exactly once, returns the in-flight promise
and stores it in the cache immediately — before it settles — with the
factory's eventual outcome attached; a second resolution of the same
provider started before the promise settles returns the very same pending
promise and leaves the state untouched: no second factory invocation, both
callers receiving the same eventual value. -/
theorem asyncSingleFlight (env : Env) (fuel1 fuel2 r : Nat) (ctx : Ctx) (s : St)
    (out : Except String Val)
    (hmode : (env (findRefInContext r ctx)).mode = Mode.global)
    (hprov : (env (findRefInContext r ctx)).providers = [])
    (hfac : (env (findRefInContext r ctx)).factory (countInv s (findRefInContext r ctx)) =
      FBody.asyncF out)
    (hmiss : cacheGet s (findRefInContext r ctx) = none) :
    (injectInternal env (fuel1 + 1) r ctx [] s).1 =
      Except.ok (Val.pending s.promises.length) ∧
    cacheGet (injectInternal env (fuel1 + 1) r ctx [] s).2 (findRefInContext r ctx) =
      some (Val.pending s.promises.length) ∧
    countInv (injectInternal env (fuel1 + 1) r ctx [] s).2 (findRefInContext r ctx) =
      countInv s (findRefInContext r ctx) + 1 ∧
    promOutcome (injectInternal env (fuel1 + 1) r ctx [] s).2 s.promises.length = some out ∧
    injectInternal env (fuel2 + 1) r ctx [] (injectInternal env (fuel1 + 1) r ctx [] s).2 =
      (Except.ok (Val.pending s.promises.length),
        (injectInternal env (fuel1 + 1) r ctx [] s).2) := by
  obtain ⟨h1, h2, h3, h4⟩ := inject_asyncF env fuel1 r ctx s out hmode hprov hfac hmiss
  exact ⟨h1, h2, h3, h4,
    inject_cache_hit env fuel2 r ctx [] _ _ hmode (List.not_mem_nil _) h2⟩

/-- C2 witness: the asynchronous provider `0` of `envAsyncOk`, resolved
twice before its promise settles, yields one invocation and the same pending
promise for both callers. -/
theorem asyncSingleFlight_witness :
    (injectInternal envAsyncOk 1 0 Ctx.root [] emptySt).1 = Except.ok (Val.pending 0) ∧
    cacheGet (injectInternal envAsyncOk 1 0 Ctx.root [] emptySt).2 0 =
      some (Val.pending 0) ∧
    countInv (injectInternal envAsyncOk 1 0 Ctx.root [] emptySt).2 0 = 1 ∧
    promOutcome (injectInternal envAsyncOk 1 0 Ctx.root [] emptySt).2 0 =
      some (Except.ok (Val.str "v")) ∧
    injectInternal envAsyncOk 1 0 Ctx.root []
      (injectInternal envAsyncOk 1 0 Ctx.root [] emptySt).2 =
      (Except.ok (Val.pending 0), (injectInternal envAsyncOk 1 0 Ctx.root [] emptySt).2) :=
  asyncSingleFlight envAsyncOk 0 0 0 Ctx.root emptySt (Except.ok (Val.str "v"))
    rfl rfl rfl rfl

/-- C6: singleton property.  A `global`-mode provider resolved successfully
once (from any context in which it is effective, with a fresh invocation
count) and then resolved again — from the same or a different root context —
returns the identical instance the second time with the state untouched (no
factory invocation, no cache write), and its factory has run at most once. -/
theorem singletonProperty (env : Env) (fuel1 fuel2 r1 r2 : Nat) (ctx1 ctx2 : Ctx)
    (s : St) (v : Val)
    (hmode : (env (findRefInContext r1 ctx1)).mode = Mode.global)
    (heff : findRefInContext r2 ctx2 = findRefInContext r1 ctx1)
    (hfresh : countInv s (findRefInContext r1 ctx1) = 0)
    (hok : (injectInternal env fuel1 r1 ctx1 [] s).1 = Except.ok v) :
    injectInternal env (fuel2 + 1) r2 ctx2 [] (injectInternal env fuel1 r1 ctx1 [] s).2 =
      (Except.ok v, (injectInternal env fuel1 r1 ctx1 [] s).2) ∧
    countInv (injectInternal env fuel1 r1 ctx1 [] s).2 (findRefInContext r1 ctx1) ≤ 1 := by
  have h1 := inject_global_caches env fuel1 r1 ctx1 [] s v hmode hok
  constructor
  · exact inject_cache_hit env fuel2 r2 ctx2 [] _ v (by rw [heff]; exact hmode)
      (by rw [heff]; exact List.not_mem_nil _) (by rw [heff]; exact h1)
  · have h2 := (injectInternal_callOK env fuel1 r1 ctx1 [] s).globalAtMostOne
      (findRefInContext r1 ctx1) hmode
    omega

/-- C6 witness: provider `2` of `envFW`, resolved twice from the root
context starting from the empty state: identical instance, one invocation. -/
theorem singletonProperty_witness :
    injectInternal envFW 4 2 Ctx.root [] (injectInternal envFW 5 2 Ctx.root [] emptySt).2 =
      (Except.ok (Val.str "base"), (injectInternal envFW 5 2 Ctx.root [] emptySt).2) ∧
    countInv (injectInternal envFW 5 2 Ctx.root [] emptySt).2 2 ≤ 1 :=
  singletonProperty envFW 5 3 2 2 Ctx.root Ctx.root emptySt (Val.str "base")
    (by decide) (by decide) (by decide) (by decide)

/-- C3: cycle detection.  Whenever the effective provider already appears in
the resolution call stack, the call fails with a `CircularDependency` error
whose message names the provider by its factory's declared name — the
anonymous placeholder when the factory is unnamed — and leaves the state
untouched (first and second conjuncts).  The concrete conjuncts run the
spec's scenario: mutually-recursive `a`/`b` fail naming `ServiceA`, an
unnamed self-cycle fails with `<anonymous>`, and resolving the unrelated
provider `2` afterwards, in the same context and post-failure state,
succeeds normally — the stack did not leak past the failed resolution. -/
theorem cycleDetection :
    (∀ (env : Env) (fuel r : Nat) (ctx : Ctx) (stack : List Nat) (s : St),
      findRefInContext r ctx ∈ stack →
      injectInternal env (fuel + 1) r ctx stack s =
        (Except.error (Err.circular ("Circular dependency detected: " ++
          getRefName (env (findRefInContext r ctx)))), s)) ∧
    (∀ p : Provider, p.fname = "" → getRefName p = "<anonymous>") ∧
    (∀ p : Provider, p.fname ≠ "" → getRefName p = p.fname) ∧
    (topInject envCycle 10 0 Ctx.root emptySt).1 =
      Except.error (Err.circular "Circular dependency detected: ServiceA") ∧
    (topInject envCycle 10 2 Ctx.root (topInject envCycle 10 0 Ctx.root emptySt).2).1 =
      Except.ok (Val.natV 7) ∧
    (topInject envSelfCycle 10 0 Ctx.root emptySt).1 =
      Except.error (Err.circular "Circular dependency detected: <anonymous>") := by
  refine ⟨?_, ?_, ?_, by decide, by decide, by decide⟩
  · intro env fuel r ctx stack s h
    exact injectInternal_cycle env fuel r ctx stack s h
  · intro p h
    unfold getRefName
    rw [if_pos h]
  · intro p h
    unfold getRefName
    rw [if_neg h]

/-- C3 witness: the general cycle statement applied to `envCycle` at the
point where `0` is requested with `[0, 1]` on the stack. -/
theorem cycleDetection_witness :
    injectInternal envCycle 8 0 Ctx.root [0, 1] emptySt =
      (Except.error (Err.circular "Circular dependency detected: ServiceA"), emptySt) := by
  have h := cycleDetection.1 envCycle 7 0 Ctx.root [0, 1] emptySt (by decide)
  exact h

/-- C4: async failure does not stick.  A rejection handler evicts the cache
entry of its provider only when that entry is still the very promise this
call installed (first conjunct); when the entry has changed, it is left
alone (second conjunct).  The concrete conjuncts run the spec's scenarios on
`envRetry` (fails first, succeeds second): sequentially, the first
resolution caches the failing promise, settling it evicts the entry, and the
second resolution re-invokes the factory — exactly 2 invocations and a
successful second result; and with a fresh entry installed before the stale
failure settles, the stale handler does not evict it. -/
theorem asyncFailureRetry :
    (∀ (pid : Nat) (e : String) (s : St) (h : Handler),
      h.mode = Mode.global → cacheGet s h.ref = some (Val.pending pid) →
      cacheGet (runHandler pid (Except.error e) s h) h.ref = none) ∧
    (∀ (pid : Nat) (e : String) (s : St) (h : Handler),
      cacheGet s h.ref ≠ some (Val.pending pid) →
      cacheGet (runHandler pid (Except.error e) s h) h.ref = cacheGet s h.ref) ∧
    (topInject envRetry 10 0 Ctx.root emptySt).1 = Except.ok (Val.pending 0) ∧
    promOutcome (topInject envRetry 10 0 Ctx.root emptySt).2 0 =
      some (Except.error "Temporary failure") ∧
    cacheGet (settle (topInject envRetry 10 0 Ctx.root emptySt).2 0) 0 = none ∧
    (topInject envRetry 10 0 Ctx.root
      (settle (topInject envRetry 10 0 Ctx.root emptySt).2 0)).1 =
      Except.ok (Val.pending 1) ∧
    promOutcome (topInject envRetry 10 0 Ctx.root
      (settle (topInject envRetry 10 0 Ctx.root emptySt).2 0)).2 1 =
      some (Except.ok (Val.str "recovered")) ∧
    countInv (topInject envRetry 10 0 Ctx.root
      (settle (topInject envRetry 10 0 Ctx.root emptySt).2 0)).2 0 = 2 ∧
    (topInject envRetry 10 0 Ctx.root
      (resetGlobalInstances (topInject envRetry 10 0 Ctx.root emptySt).2)).1 =
      Except.ok (Val.pending 1) ∧
    cacheGet (settle (topInject envRetry 10 0 Ctx.root
      (resetGlobalInstances (topInject envRetry 10 0 Ctx.root emptySt).2)).2 0) 0 =
      some (Val.pending 1) := by
  refine ⟨?_, ?_, by decide, by decide, by decide, by decide, by decide, by decide,
    by decide, by decide⟩
  · intro pid e s h hm hcv
    show cacheGet (deactivate (deactivateOpt
      (if h.mode = Mode.global ∧ cacheGet s h.ref = some (Val.pending pid)
        then cacheDelete s h.ref else s) h.childInj) h.selfInj) h.ref = none
    rw [if_pos ⟨hm, hcv⟩, cacheGet_deactivate, cacheGet_deactivateOpt,
      cacheGet_cacheDelete_self]
  · intro pid e s h hne
    show cacheGet (deactivate (deactivateOpt
      (if h.mode = Mode.global ∧ cacheGet s h.ref = some (Val.pending pid)
        then cacheDelete s h.ref else s) h.childInj) h.selfInj) h.ref = cacheGet s h.ref
    rw [if_neg (fun hcon => hne hcon.2), cacheGet_deactivate, cacheGet_deactivateOpt]

/-- C4 witness: the eviction guard applied concretely — a handler for
provider `0` whose installed promise `0` is still cached evicts it; after
the entry has been replaced by promise `1`, the stale handler for promise
`0` leaves it in place. -/
theorem asyncFailureRetry_witness :
    cacheGet (runHandler 0 (Except.error "boom")
      (cacheSet emptySt 0 (Val.pending 0))
      { ref := 0, mode := Mode.global, childInj := none, selfInj := 0 }) 0 = none ∧
    cacheGet (runHandler 0 (Except.error "boom")
      (cacheSet emptySt 0 (Val.pending 1))
      { ref := 0, mode := Mode.global, childInj := none, selfInj := 0 }) 0 =
      cacheGet (cacheSet emptySt 0 (Val.pending 1)) 0 :=
  ⟨asyncFailureRetry.1 0 "boom" (cacheSet emptySt 0 (Val.pending 0))
      { ref := 0, mode := Mode.global, childInj := none, selfInj := 0 } rfl (by decide),
    asyncFailureRetry.2.1 0 "boom" (cacheSet emptySt 0 (Val.pending 1))
      { ref := 0, mode := Mode.global, childInj := none, selfInj := 0 } (by decide)⟩

/-- C5: override shadowing.  The effective provider is computed by walking
from the current context up through parents: the root yields the request
itself, an innermost table containing the request wins regardless of
ancestors, and a table without the request defers to the parent (first three
conjuncts).  Concretely on `envShadow`: resolving the wrapper `3` sees the
override inside `2`'s factory (first component `"X"`) while the very same
caller resolving the base `0` right afterwards — and a top-level resolution
of `0` later — still gets `0`'s own instance `"B"`: the override is visible
only inside the overriding provider's own factory execution. -/
theorem overrideShadowing :
    (∀ r : Nat, findRefInContext r Ctx.root = r) ∧
    (∀ (locals : List (Nat × Nat)) (parent : Ctx) (r ov : Nat),
      mapGet r locals = some ov →
      findRefInContext r (Ctx.child locals parent) = ov) ∧
    (∀ (locals : List (Nat × Nat)) (parent : Ctx) (r : Nat),
      mapGet r locals = none →
      findRefInContext r (Ctx.child locals parent) = findRefInContext r parent) ∧
    (topInject envShadow 10 3 Ctx.root emptySt).1 =
      Except.ok (Val.pairV (Val.str "X") (Val.str "B")) ∧
    (topInject envShadow 10 0 Ctx.root (topInject envShadow 10 3 Ctx.root emptySt).2).1 =
      Except.ok (Val.str "B") := by
  refine ⟨fun r => rfl, ?_, ?_, by decide, by decide⟩
  · intro locals parent r ov h
    simp [findRefInContext, h]
  · intro locals parent r h
    simp [findRefInContext, h]

/-- C5 witness: the walk applied concretely — the innermost override wins
over an ancestor's override for the same target, and an untouched request
falls through to the parent. -/
theorem overrideShadowing_witness :
    findRefInContext 0 (Ctx.child [(0, 2)] (Ctx.child [(0, 1)] Ctx.root)) = 2 ∧
    findRefInContext 5 (Ctx.child [(0, 2)] Ctx.root) = findRefInContext 5 Ctx.root ∧
    findRefInContext 5 Ctx.root = 5 :=
  ⟨overrideShadowing.2.1 [(0, 2)] (Ctx.child [(0, 1)] Ctx.root) 0 2 (by decide),
    overrideShadowing.2.2.1 [(0, 2)] Ctx.root 5 (by decide),
    overrideShadowing.1 5⟩

/-- C7: scoped property.  A `standalone`-mode effective provider never
consults the cache: every resolution call that passes the cycle check
invokes the factory exactly once more, and the provider's cache entry is not
read, written, or removed — it stays exactly as it was (first conjunct, for
an arbitrary factory).  With an allocating factory, two resolutions from the
same context return distinct instances — fresh allocation ids — and the
global cache is completely untouched (second conjunct). -/
theorem scopedProperty :
    (∀ (env : Env) (fuel r : Nat) (ctx : Ctx) (stack : List Nat) (s : St),
      (env (findRefInContext r ctx)).mode = Mode.standalone →
      findRefInContext r ctx ∉ stack →
      countInv (injectInternal env (fuel + 1) r ctx stack s).2 (findRefInContext r ctx) =
        countInv s (findRefInContext r ctx) + 1 ∧
      cacheGet (injectInternal env (fuel + 1) r ctx stack s).2 (findRefInContext r ctx) =
        cacheGet s (findRefInContext r ctx)) ∧
    (∀ (env : Env) (fuel1 fuel2 r : Nat) (ctx : Ctx) (s : St),
      (env (findRefInContext r ctx)).mode = Mode.standalone →
      (env (findRefInContext r ctx)).providers = [] →
      (∀ i, (env (findRefInContext r ctx)).factory i = FBody.newObj) →
      (injectInternal env (fuel1 + 1) r ctx [] s).1 = Except.ok (Val.obj s.nextObj) ∧
      (injectInternal env (fuel2 + 1) r ctx []
        (injectInternal env (fuel1 + 1) r ctx [] s).2).1 =
        Except.ok (Val.obj (s.nextObj + 1)) ∧
      Val.obj s.nextObj ≠ Val.obj (s.nextObj + 1) ∧
      (injectInternal env (fuel1 + 1) r ctx [] s).2.globalInstances = s.globalInstances) := by
  constructor
  · intro env fuel r ctx stack s hmode hmem
    exact inject_standalone_invokes env fuel r ctx stack s hmode hmem
  · intro env fuel1 fuel2 r ctx s hmode hprov hfac
    obtain ⟨h1, h2, h3, _⟩ := inject_newObj env fuel1 r ctx s hmode hprov hfac
    have h5 := inject_newObj env fuel2 r ctx
      (injectInternal env (fuel1 + 1) r ctx [] s).2 hmode hprov hfac
    refine ⟨h1, ?_, ?_, h2⟩
    · rw [h5.1, h3]
    · intro hcon
      exact absurd (Val.obj.inj hcon) (by omega)

/-- C7 witness: the `standalone` provider `0` of `envScoped` resolved twice
from the root: fresh distinct objects, one invocation each, empty cache. -/
theorem scopedProperty_witness :
    (injectInternal envScoped 1 0 Ctx.root [] emptySt).1 = Except.ok (Val.obj 0) ∧
    (injectInternal envScoped 1 0 Ctx.root []
      (injectInternal envScoped 1 0 Ctx.root [] emptySt).2).1 = Except.ok (Val.obj 1) ∧
    Val.obj 0 ≠ Val.obj 1 ∧
    (injectInternal envScoped 1 0 Ctx.root [] emptySt).2.globalInstances =
      emptySt.globalInstances := by
  have h := scopedProperty.2 envScoped 0 0 0 Ctx.root emptySt rfl rfl (fun i => rfl)
  exact h

/-- C9: resolver deactivation.  Invoking a captured resolver whose record
has been deactivated resolves with the empty cycle-detection stack against
the record's own (child) context — a fresh top-level call (first conjunct,
definitional).  Concretely: the resolver captured by `envCapture`'s provider
`3` is deactivated as soon as the factory has returned, and invoking it
afterwards still succeeds and still sees the child context's override
(`"X"`).  For the asynchronous case (`envCaptureAsync`): before the promise
settles the captured resolver still carries the construction's stack — so
resolving `0` through it hits cycle detection — and once the promise
settles, the record is deactivated and the same call succeeds with the empty
stack, returning the cached promise. -/
theorem resolverDeactivation :
    (∀ (env : Env) (fuel iid r : Nat) (s : St) (rec : InjectRec),
      s.injs.get? iid = some rec → rec.active = false →
      callInject env fuel iid r s = injectInternal env fuel r rec.targetCtx [] s) ∧
    (topInject envCapture 10 3 Ctx.root emptySt).1 = Except.ok (Val.resolver 1) ∧
    ((topInject envCapture 10 3 Ctx.root emptySt).2.injs.get? 1).map
      (fun rec => rec.active) = some false ∧
    (callInject envCapture 10 1 1 (topInject envCapture 10 3 Ctx.root emptySt).2).1 =
      Except.ok (Val.str "X") ∧
    (topInject envCaptureAsync 10 0 Ctx.root emptySt).1 = Except.ok (Val.pending 0) ∧
    promOutcome (topInject envCaptureAsync 10 0 Ctx.root emptySt).2 0 =
      some (Except.ok (Val.resolver 0)) ∧
    ((topInject envCaptureAsync 10 0 Ctx.root emptySt).2.injs.get? 0).map
      (fun rec => rec.active) = some true ∧
    (callInject envCaptureAsync 10 0 0 (topInject envCaptureAsync 10 0 Ctx.root emptySt).2).1 =
      Except.error (Err.circular "Circular dependency detected: <anonymous>") ∧
    ((settle (topInject envCaptureAsync 10 0 Ctx.root emptySt).2 0).injs.get? 0).map
      (fun rec => rec.active) = some false ∧
    (callInject envCaptureAsync 10 0 0
      (settle (topInject envCaptureAsync 10 0 Ctx.root emptySt).2 0)).1 =
      Except.ok (Val.pending 0) := by
  refine ⟨?_, by decide, by decide, by decide, by decide, by decide, by decide,
    by decide, by decide, by decide⟩
  intro env fuel iid r s rec hget hact
  simp only [List.get?_eq_getElem?] at hget
  simp [callInject, hget, hact]

/-- C9 witness: the deactivated-resolver rule applied to the record the
concrete `envCapture` scenario produced. -/
theorem resolverDeactivation_witness :
    callInject envCapture 3 1 1 (topInject envCapture 10 3 Ctx.root emptySt).2 =
      injectInternal envCapture 3 1 (Ctx.child (buildLocals envCapture [2]) Ctx.root) []
        (topInject envCapture 10 3 Ctx.root emptySt).2 := by
  have h := resolverDeactivation.1 envCapture 3 1 1
    (topInject envCapture 10 3 Ctx.root emptySt).2
    { targetCtx := Ctx.child (buildLocals envCapture [2]) Ctx.root, stack := [3],
      active := false } (by decide) rfl
  exact h

/-- C10: synchronous-failure atomicity.  No resolution ever removes or
replaces an existing cache entry (first conjunct), and a failed resolution —
in particular one whose factory threw synchronously — leaves the effective
provider's cache entry exactly as it was, so no entry is installed for it
(second conjunct).  Concretely on `envThrow`: the first resolution fails
with the thrown error and caches nothing, and a subsequent resolution
invokes the factory again — two invocations after two attempts. -/
theorem syncThrowAtomicity :
    (∀ (env : Env) (fuel r : Nat) (ctx : Ctx) (stack : List Nat) (s : St) (q : Nat) (v : Val),
      cacheGet s q = some v →
      cacheGet (injectInternal env fuel r ctx stack s).2 q = some v) ∧
    (∀ (env : Env) (fuel r : Nat) (ctx : Ctx) (stack : List Nat) (s : St) (e : Err),
      (injectInternal env fuel r ctx stack s).1 = Except.error e →
      cacheGet (injectInternal env fuel r ctx stack s).2 (findRefInContext r ctx) =
        cacheGet s (findRefInContext r ctx)) ∧
    (topInject envThrow 10 0 Ctx.root emptySt).1 = Except.error (Err.thrown "boom") ∧
    cacheGet (topInject envThrow 10 0 Ctx.root emptySt).2 0 = none ∧
    (topInject envThrow 10 0 Ctx.root (topInject envThrow 10 0 Ctx.root emptySt).2).1 =
      Except.error (Err.thrown "boom") ∧
    countInv (topInject envThrow 10 0 Ctx.root
      (topInject envThrow 10 0 Ctx.root emptySt).2).2 0 = 2 := by
  refine ⟨?_, ?_, by decide, by decide, by decide, by decide⟩
  · intro env fuel r ctx stack s q v hv
    exact (injectInternal_callOK env fuel r ctx stack s).cachePres q v hv
  · intro env fuel r ctx stack s e herr
    exact inject_error_cache env fuel r ctx stack s e herr

/-- C10 witness: the no-removal rule applied concretely — an unrelated
pre-existing entry survives the failing resolution of `envThrow`'s provider,
and the failing resolution leaves its own (absent) entry absent. -/
theorem syncThrowAtomicity_witness :
    cacheGet (injectInternal envThrow 5 0 Ctx.root []
      (cacheSet emptySt 7 (Val.natV 1))).2 7 = some (Val.natV 1) ∧
    cacheGet (injectInternal envThrow 5 0 Ctx.root [] emptySt).2 0 = cacheGet emptySt 0 :=
  ⟨syncThrowAtomicity.1 envThrow 5 0 Ctx.root [] (cacheSet emptySt 7 (Val.natV 1)) 7
      (Val.natV 1) (by decide),
    syncThrowAtomicity.2.1 envThrow 5 0 Ctx.root [] emptySt (Err.thrown "boom") (by decide)⟩

/-- C8 counterexample: the claim "instances constructed while an override
scope is active never populate the Global Instance Cache" is false on the
code.  Resolving provider `2` of `envFW` in a child context whose non-empty
local-override table maps its dependency `0` to the override `1` — an active
override scope — constructs the override-influenced instance `"over"` and
DOES store it in the global cache keyed by `2` (starting from the empty
cache).  The last conjunct shows the same through the public path: resolving
wrapper `3` from the root (whose factory runs in exactly that override
scope) leaves the entry for `2` in the cache.  This is the behaviour the
repository's test "override becomes global singleton when created first"
pins down, and the first-write-wins rule of spec §4.3. -/
theorem overrideScopePopulatesCache :
    buildLocals envFW [1] = [(0, 1)] ∧
    cacheGet emptySt 2 = none ∧
    cacheGet (injectInternal envFW 5 2 (Ctx.child (buildLocals envFW [1]) Ctx.root)
      [] emptySt).2 2 = some (Val.str "over") ∧
    cacheGet (topInject envFW 10 3 Ctx.root emptySt).2 2 = some (Val.str "over") := by
  decide

/-- C8 amended: global-cache population is restricted by instance mode, not
by override scope.  Every successful resolution of a `global`-mode effective
provider populates the cache, keyed by the effective provider's identity,
whether or not an override scope is active (first conjunct — the context is
arbitrary); resolutions never create or remove entries for
`standalone`-mode providers (second conjunct). -/
theorem globalCachePopulation (env : Env) (fuel r : Nat) (ctx : Ctx) (stack : List Nat)
    (s : St) (v : Val)
    (hmode : (env (findRefInContext r ctx)).mode = Mode.global)
    (hok : (injectInternal env fuel r ctx stack s).1 = Except.ok v) :
    cacheGet (injectInternal env fuel r ctx stack s).2 (findRefInContext r ctx) = some v ∧
    (∀ (env2 : Env) (fuel2 r2 : Nat) (ctx2 : Ctx) (stack2 : List Nat) (s2 : St) (q : Nat),
      (env2 q).mode = Mode.standalone →
      cacheGet (injectInternal env2 fuel2 r2 ctx2 stack2 s2).2 q = cacheGet s2 q) :=
  ⟨inject_global_caches env fuel r ctx stack s v hmode hok,
    fun env2 fuel2 r2 ctx2 stack2 s2 q hq =>
      (injectInternal_callOK env2 fuel2 r2 ctx2 stack2 s2).standaloneCache q hq⟩

/-- C8 amended witness: the amended population rule applied inside the
override scope of `envFW`. -/
theorem globalCachePopulation_witness :
    cacheGet (injectInternal envFW 5 2 (Ctx.child (buildLocals envFW [1]) Ctx.root)
      [] emptySt).2 2 = some (Val.str "over") :=
  (globalCachePopulation envFW 5 2 (Ctx.child (buildLocals envFW [1]) Ctx.root) []
    emptySt (Val.str "over") (by decide) (by decide)).1

end DnIoc
